import Mathlib

/-!
Shallow embedding of `src/medianvals_by_zip.py` (repository
`find_political_donors`), a one-pass pipeline that reads pipe-delimited
FEC contribution records and emits, per accepted record, the running
median, count and total of transaction amounts keyed by
(CMTE_ID, ZIP_CODE).

Modelling conventions:
* Python strings are modelled as `List Char` (the input is ASCII FEC
  data, so numpy `|S10` byte strings coincide with 10-character takes).
* numpy `float64` amounts are modelled as exact fractions (`Frac`): a
  numerator/denominator pair produced by the decimal parser.  Amount
  texts occurring in FEC files have few digits, where binary floating
  point and exact arithmetic agree on every comparison, sum, median and
  rounding appearing here.
* The program is a Python 2 program (its `np.savetxt(..., fmt="%s")`
  over byte strings and its `round` behaviour match the documented
  output only under Python 2), so `round(x, 0)` rounds halves away from
  zero.
* Fallible steps return `Option`/`Except`.
-/

/-- Python `s.strip(c)` for a one-character argument: removes every
leading and trailing occurrence of `c`.  The source uses `strip('\n')`
on raw lines and `strip(" ")` on zip codes (note: only the space
character, not arbitrary whitespace). -/
def pyStripChar (c : Char) (s : List Char) : List Char :=
  ((s.dropWhile (· = c)).reverse.dropWhile (· = c)).reverse

/-- Python `s.split(sep)` for a one-character separator: splitting the
empty string yields `[[]]`, and separators at the ends yield empty
fields, exactly as in Python. -/
def pySplit (sep : Char) : List Char → List (List Char)
  | [] => [[]]
  | c :: cs =>
    match pySplit sep cs with
    | [] => [[]]
    | f :: rest => if c = sep then [] :: f :: rest else (c :: f) :: rest

/-- Record projected from one well-formed 21-field line: fields at
indices 0, 10, 13, 14, 15 of the split line.  The source also appends
three placeholder entries (the amount text twice and the literal 1)
that only serve to fill the MEDIAN_AMT_BY_ZIP / DONATION_COUNT /
TOTAL_AMT columns of the numpy record; their effect is modelled in
`np_rec_array` below, since `update_donations` overwrites all three
before any row is emitted. -/
structure ProjectedRecord where
  cmte_id : List Char
  zip_code : List Char
  trans_dt : List Char
  trans_amt : List Char
  other_id : List Char
deriving DecidableEq

/-- Python `extract_data` (lines 5-24): split the newline-stripped line
on the pipe character; reject unless exactly 21 fields; project the
five fields of interest; normalize the zip code by stripping spaces and
keeping at most the first five characters.  `False` in the source is
modelled as `none`. -/
def extract_data (line : List Char) : Option ProjectedRecord :=
  let record := pySplit '|' (pyStripChar '\n' line)
  if record.length ≠ 21 then none
  else some
    { cmte_id := record.getD 0 []
      zip_code := (pyStripChar ' ' (record.getD 10 [])).take 5
      trans_dt := record.getD 13 []
      trans_amt := record.getD 14 []
      other_id := record.getD 15 [] }

/-- Python `check_zip_data_requirements` (lines 26-41): `good_data`
starts `True` and becomes `False` when any of the listed conditions
holds.  The function is total: rejection is a returned value, never an
exception. -/
def check_zip_data_requirements (line_of_data : ProjectedRecord) : Bool :=
  let good_data := true
  if line_of_data.cmte_id = [] ∨
      (pyStripChar ' ' line_of_data.zip_code).length ≠ 5 ∨
      pyStripChar ' ' line_of_data.zip_code = [] ∨
      line_of_data.trans_amt = [] ∨
      line_of_data.other_id ≠ [] then
    false
  else good_data

/-- Exact fraction: modelling of a numeric value read from text.
`den` is positive for every value built by the parsers and operations
below. -/
structure Frac where
  num : ℤ
  den : ℕ
deriving DecidableEq

/-- Predicate used by the numeral parsers: a nonempty string of ASCII
digits. -/
def isDigits (cs : List Char) : Bool := cs ≠ [] && cs.all (·.isDigit)

/-- Numeric value of a string of ASCII digits (most significant
first). -/
def digitsToNat (cs : List Char) : ℕ :=
  cs.foldl (fun n c => 10 * n + (c.toNat - 48)) 0

/-- Model of Python `int(text)` as used by numpy when casting a byte
string into an `int64` field: optional surrounding spaces, optional
sign, then a nonempty digit string.  Texts with a decimal point (or any
other character) are rejected. -/
def pyParseInt (s : List Char) : Option ℤ :=
  match pyStripChar ' ' s with
  | '+' :: ds => if isDigits ds then some (digitsToNat ds) else none
  | '-' :: ds => if isDigits ds then some (-(digitsToNat ds : ℤ)) else none
  | ds => if isDigits ds then some (digitsToNat ds) else none

/-- Unsigned decimal numeral: digits with an optional fractional part
(`12`, `12.5`, `12.`, `.5`).  Mirrors the plain-decimal subset of
Python float syntax; exponent forms and `inf`/`nan`, which never occur
in FEC amount fields, are outside the model. -/
def parseUnsignedDec (s : List Char) : Option Frac :=
  match pySplit '.' s with
  | [a] => if isDigits a then some ⟨digitsToNat a, 1⟩ else none
  | [a, b] =>
    if (a ≠ [] ∨ b ≠ []) ∧ a.all (·.isDigit) ∧ b.all (·.isDigit) then
      some ⟨digitsToNat a * 10 ^ b.length + digitsToNat b, 10 ^ b.length⟩
    else none
  | _ => none

/-- Model of Python `float(text)` / the numpy cast of a byte string
into the `float64` field `TRANS_AMT`: optional surrounding spaces,
optional sign, then a plain decimal numeral, read exactly. -/
def pyParseFloat (s : List Char) : Option Frac :=
  match pyStripChar ' ' s with
  | '+' :: rest => parseUnsignedDec rest
  | '-' :: rest => (parseUnsignedDec rest).map (fun f => ⟨-f.num, f.den⟩)
  | rest => parseUnsignedDec rest

/-- Sum of two exact fractions. -/
def Frac.add (a b : Frac) : Frac :=
  ⟨a.num * b.den + b.num * a.den, a.den * b.den⟩

/-- Sum of a list of amounts, as `np.sum` over `float64` values
(exact in this model). -/
def Frac.sum (l : List Frac) : Frac := l.foldl Frac.add ⟨0, 1⟩

/-- Halving, used for the even-length median: the mean of two values
`a` and `b` is `Frac.div2 (Frac.add a b)`. -/
def Frac.div2 (f : Frac) : Frac := ⟨f.num, f.den * 2⟩

/-- Value order on fractions with positive denominators, by
cross-multiplication. -/
def Frac.le (a b : Frac) : Bool :=
  decide (a.num * (b.den : ℤ) ≤ b.num * (a.den : ℤ))

/-- Floor of an exact fraction (positive denominator). -/
def Frac.floor (f : Frac) : ℤ := f.num.fdiv f.den

/-- Negation. -/
def Frac.neg (f : Frac) : Frac := ⟨-f.num, f.den⟩

/-- Truncation toward zero, the semantics of the C cast a numpy
`float64` value undergoes when stored into the `int64` column
`TOTAL_AMT`. -/
def Frac.trunc (f : Frac) : ℤ := f.num.tdiv f.den

/-- Python 2 `round(x, 0)`: round to the nearest integer, halves away
from zero.  (The subsequent storage of the already-integral result into
the `int64` column MEDIAN_AMT_BY_ZIP is the identity.) -/
def pyRound (f : Frac) : ℤ :=
  if 0 ≤ f.num then (Frac.add f ⟨1, 2⟩).floor
  else -((Frac.add (Frac.neg f) ⟨1, 2⟩).floor)

/-- Insert into a value-sorted list of fractions. -/
def insertFrac (a : Frac) : List Frac → List Frac
  | [] => [a]
  | b :: bs => if Frac.le a b then a :: b :: bs else b :: insertFrac a bs

/-- Sort a list of fractions by value (insertion sort; `np.median`
sorts its input, and any value-sort yields the same median). -/
def sortFracs (l : List Frac) : List Frac := l.foldr insertFrac []

/-- Model of `np.median` on a nonempty list: sort, take the middle
element for odd length, the mean of the two central elements for even
length. -/
def npMedian (l : List Frac) : Frac :=
  let s := sortFracs l
  if l.length % 2 = 1 then s.getD (l.length / 2) ⟨0, 1⟩
  else Frac.div2 (Frac.add (s.getD (l.length / 2 - 1) ⟨0, 1⟩) (s.getD (l.length / 2) ⟨0, 1⟩))

example : pyRound ⟨45, 2⟩ = 23 := by decide
example : pyRound ⟨-45, 2⟩ = -23 := by decide
example : pyRound ⟨224, 10⟩ = 22 := by decide
example : Frac.trunc ⟨-7, 2⟩ = -3 := by decide
example : Frac.trunc ⟨7, 2⟩ = 3 := by decide
example : npMedian [⟨10, 1⟩, ⟨30, 1⟩, ⟨20, 1⟩] = ⟨20, 1⟩ := by decide
example : pyRound (npMedian [⟨10, 1⟩, ⟨20, 1⟩, ⟨30, 1⟩, ⟨40, 1⟩]) = 25 := by decide
example : pyParseFloat "20.5".toList = some ⟨205, 10⟩ := by decide
example : pyParseInt "20.5".toList = none := by decide
example : pyParseInt "-20".toList = some (-20) := by decide

/-- Row of the one-element numpy recarray built at line 107
(`np.rec.array(relevant_data, dtype=records_dt)`) from a validated
record.  The dtype (lines 85-86) stores CMTE_ID and ZIP_CODE as `|S10`,
truncating to the first 10 bytes, and TRANS_AMT as `float64`.
TRANS_DT and OTHER_ID are carried but never read downstream (OTHER_ID
is empty on every validated record), so they are not carried here.
The MEDIAN_AMT_BY_ZIP / DONATION_COUNT / TOTAL_AMT columns are
overwritten by `update_donations` before any row is emitted. -/
structure RecArrayRow where
  cmte_id : List Char
  zip_code : List Char
  trans_amt : Frac
deriving DecidableEq

/-- Conversion of a projected record into the typed numpy row: the
amount text must cast into the `float64` column TRANS_AMT, and — the
reason for the second guard — `extract_data` (line 21) also placed the
same amount text into the `int64`-typed placeholder columns
MEDIAN_AMT_BY_ZIP and TOTAL_AMT, whose cast goes through Python
`int(text)`.  Any failed cast raises an uncaught `ValueError` in the
source; here the failure is `none`. -/
def np_rec_array (r : ProjectedRecord) : Option RecArrayRow :=
  match pyParseFloat r.trans_amt, pyParseInt r.trans_amt with
  | some amt, some _ => some ⟨r.cmte_id.take 10, r.zip_code.take 10, amt⟩
  | _, _ => none

/-- Association-list lookup (model of Python dict indexing; the
source's dicts are only ever read through key lookup, so insertion
order is unobservable). -/
def dlookup {β : Type} (k : List Char) : List (List Char × β) → Option β
  | [] => none
  | p :: ps => if p.1 = k then some p.2 else dlookup k ps

/-- Model of Python `d[k] = v`: overwrite in place when the key is
present, append otherwise. -/
def dictInsert {β : Type} (d : List (List Char × β)) (k : List Char) (v : β) :
    List (List Char × β) :=
  if (dlookup k d).isSome then d.map (fun p => if p.1 = k then (k, v) else p)
  else d ++ [(k, v)]

/-- The Tracker state: `{cmte_id: {zip_code: [amounts]}}`. -/
abbrev ZipDict := List (List Char × List Frac)

/-- Outer level of the donations dictionary. -/
abbrev DonDict := List (List Char × ZipDict)

/-- Amount series currently recorded for a key, empty when the key is
absent. -/
def seriesOf (d : DonDict) (c z : List Char) : List Frac :=
  match dlookup c d with
  | some zd => (dlookup z zd).getD []
  | none => []

/-- One emitted output row: the five columns selected at lines 117-118,
in their order. -/
structure OutputRow where
  cmte_id : List Char
  zip_code : List Char
  median_amt_by_zip : ℤ
  donation_count : ℕ
  total_amt : ℤ
deriving DecidableEq

/-- Python `update_donations` (lines 44-71): append the amount to the
key's series (creating dictionary levels on first occurrence), then
store `round(np.median(series), 0)`, `np.sum(series)` (cast to
`int64`, i.e. truncated) and `len(series)` into the record's columns. -/
def update_donations (data : RecArrayRow) (donations_dictionary : DonDict) :
    OutputRow × DonDict :=
  let d :=
    match dlookup data.cmte_id donations_dictionary with
    | some zd =>
      match dlookup data.zip_code zd with
      | some series =>
        dictInsert donations_dictionary data.cmte_id
          (dictInsert zd data.zip_code (series ++ [data.trans_amt]))
      | none =>
        dictInsert donations_dictionary data.cmte_id
          (dictInsert zd data.zip_code [data.trans_amt])
    | none =>
      dictInsert donations_dictionary data.cmte_id [(data.zip_code, [data.trans_amt])]
  let series := seriesOf d data.cmte_id data.zip_code
  (⟨data.cmte_id, data.zip_code, pyRound (npMedian series), series.length,
      Frac.trunc (Frac.sum series)⟩,
    d)

/-- Run-level failures of the source: `valueError` models the uncaught
numpy conversion error at line 107 on an amount text that casts into
neither `float64` nor `int64`; `nameError` models the uncaught
`NameError` at line 122, where `np.savetxt` reads `output_records`,
a variable assigned only inside the accepted branch of the loop. -/
inductive RunError where
  | valueError
  | nameError
deriving DecidableEq

/-- One iteration of the loop at lines 95-119: skip the line when
`extract_data` returns `False` or validation fails; otherwise build the
typed record (possible `ValueError`), update the tracker and append the
emitted row. -/
def processLine (line : List Char) (candidates : DonDict) (records : List OutputRow) :
    Except RunError (DonDict × List OutputRow) :=
  match extract_data line with
  | none => .ok (candidates, records)
  | some relevant_data =>
    if check_zip_data_requirements relevant_data = false then .ok (candidates, records)
    else
      match np_rec_array relevant_data with
      | none => .error .valueError
      | some row =>
        let (updated, candidates') := update_donations row candidates
        .ok (candidates', records ++ [updated])

/-- The whole `for line in f` loop, threading the tracker state and the
accumulated output rows. -/
def runLines : List (List Char) → DonDict → List OutputRow →
    Except RunError (DonDict × List OutputRow)
  | [], candidates, records => .ok (candidates, records)
  | line :: rest, candidates, records =>
    match processLine line candidates records with
    | .error e => .error e
    | .ok (c, r) => runLines rest c r

/-- Python `medianvals_by_zip` (lines 73-125) on the list of input
lines: run the loop from an empty dictionary; after the loop,
`np.savetxt` reads `output_records`, which is unbound when no record
was accepted (`NameError`); otherwise the accumulated rows are
written and returned. -/
def medianvals_by_zip (input : List (List Char)) : Except RunError (List OutputRow) :=
  match runLines input [] [] with
  | .error e => .error e
  | .ok (_, records) => if records = [] then .error .nameError else .ok records

/-- Decimal digits of a natural number, as rendered by `"%s"`
formatting (fuel-based recursion; the fuel `n + 1` always suffices). -/
def natToCharsAux : ℕ → ℕ → List Char
  | 0, _ => []
  | fuel + 1, n =>
    if n < 10 then [Char.ofNat (48 + n)]
    else natToCharsAux fuel (n / 10) ++ [Char.ofNat (48 + n % 10)]

/-- Decimal rendering of a natural number. -/
def natToChars (n : ℕ) : List Char := natToCharsAux (n + 1) n

/-- Decimal rendering of an integer. -/
def intToChars : ℤ → List Char
  | .ofNat n => natToChars n
  | .negSucc n => '-' :: natToChars (n + 1)

/-- One output line as written by `np.savetxt(..., delimiter='|',
fmt="%s")` over the five columns assembled at lines 117-118: the
columns in order, separated by the literal pipe character. -/
def renderRow (r : OutputRow) : List Char :=
  r.cmte_id ++ '|' :: r.zip_code ++ '|' :: intToChars r.median_amt_by_zip ++
    '|' :: natToChars r.donation_count ++ '|' :: intToChars r.total_amt

/-- The text written to the output file, one line per emitted row, in
emission order. -/
def medianvals_output (input : List (List Char)) : Except RunError (List (List Char)) :=
  (medianvals_by_zip input).map (fun rows => rows.map renderRow)

deriving instance DecidableEq for Except

example :
    medianvals_by_zip ["C1|x|x|x|x|x|x|x|x|x|90210|x|x|01012017|1oo||x|x|x|x|x".toList] =
      .error RunError.valueError := by decide

example : medianvals_by_zip [] = .error RunError.nameError := by decide

example :
    medianvals_output
      ["C001|x|x|x|x|x|x|x|x|x|90210|x|x|01012017|100|||x|x|x|x".toList,
       "C001|x|x|x|x|x|x|x|x|x|90210|x|x|01012017|300|||x|x|x|x".toList] =
      .ok ["C001|90210|100|1|100".toList, "C001|90210|200|2|400".toList] := by decide

/-! Specification-side descriptions of the run, used to state the
claims: the accepted records of an input, and the per-key series each
emitted row is derived from. -/

/-- The projected records of the input lines that pass the field-count
check and validation, in input order. -/
def acceptedProjected (input : List (List Char)) : List ProjectedRecord :=
  input.filterMap fun line =>
    match extract_data line with
    | none => none
    | some r => if check_zip_data_requirements r then some r else none

/-- The typed records of the accepted lines whose amount text converts,
in input order.  When the run completes normally every accepted line
converts, so this list then enumerates exactly the accepted lines. -/
def acceptedRows (input : List (List Char)) : List RecArrayRow :=
  (acceptedProjected input).filterMap np_rec_array

/-- The transaction amounts of the records of `rs` carrying the given
key, in arrival order. -/
def keyAmounts (rs : List RecArrayRow) (c z : List Char) : List Frac :=
  (rs.filter fun r => decide (r.cmte_id = c ∧ r.zip_code = z)).map (·.trans_amt)

/-- The output row derived from record `r` when its key's series is
`s`. -/
def mkOutputRow (r : RecArrayRow) (s : List Frac) : OutputRow :=
  ⟨r.cmte_id, r.zip_code, pyRound (npMedian s), s.length, Frac.trunc (Frac.sum s)⟩

/-- Record-level view of the Tracker: fold `update_donations` over a
record list, collecting the emitted rows. -/
def emitGo (d : DonDict) : List RecArrayRow → List OutputRow
  | [] => []
  | r :: rs =>
    let p := update_donations r d
    p.1 :: emitGo p.2 rs

/-- The dictionary state holds, for every key, exactly the amounts of
the records processed so far with that key. -/
def dictMatches (d : DonDict) (rs : List RecArrayRow) : Prop :=
  ∀ c z, seriesOf d c z = keyAmounts rs c z

theorem dlookup_map_update_self {β : Type} (l : List (List Char × β)) (k : List Char)
    (v : β) (h : (dlookup k l).isSome) :
    dlookup k (l.map fun p => if p.1 = k then (k, v) else p) = some v := by
  induction l with
  | nil => simp [dlookup] at h
  | cons p ps ih =>
    by_cases hp : p.1 = k
    · simp [dlookup, hp]
    · simp only [dlookup, hp, if_false] at h
      simpa [dlookup, hp] using ih h

theorem dlookup_map_update_ne {β : Type} (l : List (List Char × β)) (k k' : List Char)
    (v : β) (h : k' ≠ k) :
    dlookup k' (l.map fun p => if p.1 = k then (k, v) else p) = dlookup k' l := by
  have hk : ¬(k = k') := fun hc => h hc.symm
  induction l with
  | nil => simp [dlookup]
  | cons p ps ih =>
    by_cases hp : p.1 = k
    · simp [dlookup, hp, hk, ih]
    · by_cases hq : p.1 = k'
      · simp [dlookup, hp, hq, h]
      · simp [dlookup, hp, hq, ih]

theorem dlookup_append_self {β : Type} (l : List (List Char × β)) (k : List Char)
    (v : β) (h : dlookup k l = none) :
    dlookup k (l ++ [(k, v)]) = some v := by
  induction l with
  | nil => simp [dlookup]
  | cons p ps ih =>
    by_cases hp : p.1 = k
    · simp [dlookup, hp] at h
    · simp only [dlookup, hp, if_false] at h
      simpa [dlookup, hp] using ih h

theorem dlookup_append_ne {β : Type} (l : List (List Char × β)) (k k' : List Char)
    (v : β) (h : k' ≠ k) :
    dlookup k' (l ++ [(k, v)]) = dlookup k' l := by
  have hk : ¬(k = k') := fun hc => h hc.symm
  induction l with
  | nil => simp [dlookup, hk]
  | cons p ps ih =>
    by_cases hq : p.1 = k'
    · simp [dlookup, hq]
    · simp [dlookup, hq, ih]

theorem dlookup_dictInsert_self {β : Type} (d : List (List Char × β)) (k : List Char)
    (v : β) : dlookup k (dictInsert d k v) = some v := by
  unfold dictInsert
  by_cases h : (dlookup k d).isSome
  · simp [h, dlookup_map_update_self d k v h]
  · have hn : dlookup k d = none := by
      cases hE : dlookup k d with
      | none => rfl
      | some w => rw [hE] at h; simp at h
    simp [h, dlookup_append_self d k v hn]

theorem dlookup_dictInsert_ne {β : Type} (d : List (List Char × β)) (k k' : List Char)
    (v : β) (h : k' ≠ k) : dlookup k' (dictInsert d k v) = dlookup k' d := by
  unfold dictInsert
  by_cases hs : (dlookup k d).isSome
  · simp [hs, dlookup_map_update_ne d k k' v h]
  · simp [hs, dlookup_append_ne d k k' v h]

theorem update_donations_snd (r : RecArrayRow) (d : DonDict) :
    (update_donations r d).2 =
      dictInsert d r.cmte_id
        (dictInsert ((dlookup r.cmte_id d).getD []) r.zip_code
          (seriesOf d r.cmte_id r.zip_code ++ [r.trans_amt])) := by
  unfold update_donations seriesOf
  cases hc : dlookup r.cmte_id d with
  | none => simp [hc, dictInsert, dlookup]
  | some zd =>
    cases hz : dlookup r.zip_code zd with
    | none => simp [hc, hz]
    | some series => simp [hc, hz]

theorem seriesOf_dictInsert_self (d : DonDict) (c : List Char) (zd : ZipDict)
    (z : List Char) : seriesOf (dictInsert d c zd) c z = (dlookup z zd).getD [] := by
  unfold seriesOf
  rw [dlookup_dictInsert_self]

theorem seriesOf_dictInsert_ne (d : DonDict) (c c' : List Char) (zd : ZipDict)
    (z : List Char) (h : c' ≠ c) : seriesOf (dictInsert d c zd) c' z = seriesOf d c' z := by
  unfold seriesOf
  rw [dlookup_dictInsert_ne _ _ _ _ h]

theorem seriesOf_update_donations (r : RecArrayRow) (d : DonDict) (c z : List Char) :
    seriesOf (update_donations r d).2 c z =
      if r.cmte_id = c ∧ r.zip_code = z
      then seriesOf d r.cmte_id r.zip_code ++ [r.trans_amt]
      else seriesOf d c z := by
  rw [update_donations_snd]
  by_cases hc : r.cmte_id = c
  · subst hc
    rw [seriesOf_dictInsert_self]
    by_cases hz : r.zip_code = z
    · subst hz
      rw [dlookup_dictInsert_self]
      simp
    · rw [dlookup_dictInsert_ne _ _ _ _ (fun hzc => hz hzc.symm)]
      simp only [hz, and_false, if_false]
      unfold seriesOf
      cases hcd : dlookup r.cmte_id d with
      | none => simp [dlookup]
      | some zd => simp
  · rw [seriesOf_dictInsert_ne _ _ _ _ _ (fun hcc => hc hcc.symm)]
    simp [hc]

theorem update_donations_fst (r : RecArrayRow) (d : DonDict) :
    (update_donations r d).1 =
      mkOutputRow r (seriesOf d r.cmte_id r.zip_code ++ [r.trans_amt]) := by
  have h1 : (update_donations r d).1 =
      mkOutputRow r (seriesOf (update_donations r d).2 r.cmte_id r.zip_code) := rfl
  rw [h1, seriesOf_update_donations]
  simp

theorem keyAmounts_snoc (rs : List RecArrayRow) (r : RecArrayRow) (c z : List Char) :
    keyAmounts (rs ++ [r]) c z =
      keyAmounts rs c z ++
        if r.cmte_id = c ∧ r.zip_code = z then [r.trans_amt] else [] := by
  by_cases h : r.cmte_id = c ∧ r.zip_code = z <;>
    simp [keyAmounts, List.filter_append, h]

theorem dictMatches_nil : dictMatches [] [] := by
  intro c z
  simp [seriesOf, dlookup, keyAmounts]

theorem dictMatches_update (r : RecArrayRow) (d : DonDict) (rs : List RecArrayRow)
    (h : dictMatches d rs) : dictMatches (update_donations r d).2 (rs ++ [r]) := by
  intro c z
  rw [seriesOf_update_donations, keyAmounts_snoc]
  by_cases hkey : r.cmte_id = c ∧ r.zip_code = z
  · obtain ⟨h1, h2⟩ := hkey
    subst h1
    subst h2
    simp [h r.cmte_id r.zip_code]
  · simp [hkey, h c z]

theorem emitGo_length (rs : List RecArrayRow) :
    ∀ d : DonDict, (emitGo d rs).length = rs.length := by
  induction rs with
  | nil => intro d; rfl
  | cons r rs ih => intro d; simp [emitGo, ih]

theorem emitGo_get (rs : List RecArrayRow) :
    ∀ (pre : List RecArrayRow) (d : DonDict), dictMatches d pre →
    ∀ (k : ℕ) (r : RecArrayRow), rs[k]? = some r →
    (emitGo d rs)[k]? =
      some (mkOutputRow r (keyAmounts (pre ++ rs.take (k + 1)) r.cmte_id r.zip_code)) := by
  induction rs with
  | nil => intro pre d _ k r hk; simp at hk
  | cons r0 rs ih =>
    intro pre d hd k r hk
    cases k with
    | zero =>
      obtain rfl : r0 = r := by simpa using hk
      simp only [emitGo, List.getElem?_cons_zero, List.take_succ_cons, List.take_zero]
      rw [update_donations_fst, hd r0.cmte_id r0.zip_code, keyAmounts_snoc]
      simp
    | succ k =>
      have hk' : rs[k]? = some r := by simpa using hk
      have hd' := dictMatches_update r0 d pre hd
      have hrec := ih (pre ++ [r0]) (update_donations r0 d).2 hd' k r hk'
      simp only [emitGo, List.getElem?_cons_succ, List.take_succ_cons]
      rw [hrec]
      simp [List.append_assoc]

theorem processLine_malformed (line : List Char) (d : DonDict) (acc : List OutputRow)
    (hx : extract_data line = none) : processLine line d acc = .ok (d, acc) := by
  unfold processLine
  rw [hx]

theorem processLine_invalid (line : List Char) (r : ProjectedRecord) (d : DonDict)
    (acc : List OutputRow) (hx : extract_data line = some r)
    (hv : check_zip_data_requirements r = false) :
    processLine line d acc = .ok (d, acc) := by
  unfold processLine
  rw [hx]
  simp [hv]

theorem processLine_unparsable (line : List Char) (r : ProjectedRecord) (d : DonDict)
    (acc : List OutputRow) (hx : extract_data line = some r)
    (hv : check_zip_data_requirements r = true) (hp : np_rec_array r = none) :
    processLine line d acc = .error .valueError := by
  unfold processLine
  rw [hx]
  simp [hv, hp]

theorem processLine_accepted (line : List Char) (r : ProjectedRecord) (row : RecArrayRow)
    (d : DonDict) (acc : List OutputRow) (hx : extract_data line = some r)
    (hv : check_zip_data_requirements r = true) (hp : np_rec_array r = some row) :
    processLine line d acc =
      .ok ((update_donations row d).2, acc ++ [(update_donations row d).1]) := by
  unfold processLine
  rw [hx]
  simp [hv, hp]

theorem runLines_cons (line : List Char) (rest : List (List Char)) (d : DonDict)
    (acc : List OutputRow) :
    runLines (line :: rest) d acc =
      match processLine line d acc with
      | .error e => .error e
      | .ok (c, r) => runLines rest c r := rfl

theorem acceptedRows_cons_malformed (line : List Char) (rest : List (List Char))
    (hx : extract_data line = none) :
    acceptedRows (line :: rest) = acceptedRows rest := by
  simp [acceptedRows, acceptedProjected, List.filterMap_cons, hx]

theorem acceptedRows_cons_invalid (line : List Char) (rest : List (List Char))
    (r : ProjectedRecord) (hx : extract_data line = some r)
    (hv : check_zip_data_requirements r = false) :
    acceptedRows (line :: rest) = acceptedRows rest := by
  simp [acceptedRows, acceptedProjected, List.filterMap_cons, hx, hv]

theorem acceptedRows_cons_accepted (line : List Char) (rest : List (List Char))
    (r : ProjectedRecord) (row : RecArrayRow) (hx : extract_data line = some r)
    (hv : check_zip_data_requirements r = true) (hp : np_rec_array r = some row) :
    acceptedRows (line :: rest) = row :: acceptedRows rest := by
  simp [acceptedRows, acceptedProjected, List.filterMap_cons, hx, hv, hp]

theorem runLines_ok_rows (lines : List (List Char)) :
    ∀ (d : DonDict) (acc : List OutputRow) (out : DonDict × List OutputRow),
      runLines lines d acc = .ok out →
      out.2 = acc ++ emitGo d (acceptedRows lines) := by
  induction lines with
  | nil =>
    intro d acc out h
    have h' : Except.ok (ε := RunError) (d, acc) = .ok out := h
    obtain rfl : (d, acc) = out := by simpa using h'
    simp [acceptedRows, acceptedProjected, emitGo]
  | cons line rest ih =>
    intro d acc out h
    rw [runLines_cons] at h
    cases hx : extract_data line with
    | none =>
      rw [processLine_malformed line d acc hx] at h
      have h' : runLines rest d acc = .ok out := h
      rw [acceptedRows_cons_malformed line rest hx]
      exact ih d acc out h'
    | some r =>
      cases hv : check_zip_data_requirements r with
      | false =>
        rw [processLine_invalid line r d acc hx hv] at h
        have h' : runLines rest d acc = .ok out := h
        rw [acceptedRows_cons_invalid line rest r hx hv]
        exact ih d acc out h'
      | true =>
        cases hp : np_rec_array r with
        | none =>
          rw [processLine_unparsable line r d acc hx hv hp] at h
          have h' : Except.error (α := DonDict × List OutputRow) RunError.valueError
              = .ok out := h
          simp at h'
        | some row =>
          rw [processLine_accepted line r row d acc hx hv hp] at h
          have h' : runLines rest (update_donations row d).2
              (acc ++ [(update_donations row d).1]) = .ok out := h
          have := ih _ _ out h'
          rw [this, acceptedRows_cons_accepted line rest r row hx hv hp]
          simp [emitGo, List.append_assoc]

theorem runLines_ok_conv (lines : List (List Char)) :
    ∀ (d : DonDict) (acc : List OutputRow) (out : DonDict × List OutputRow),
      runLines lines d acc = .ok out →
      List.Forall₂ (fun (p : ProjectedRecord) (r : RecArrayRow) => np_rec_array p = some r)
        (acceptedProjected lines) (acceptedRows lines) := by
  induction lines with
  | nil => intro d acc out _; simp [acceptedProjected, acceptedRows]
  | cons line rest ih =>
    intro d acc out h
    rw [runLines_cons] at h
    cases hx : extract_data line with
    | none =>
      have hs : acceptedProjected (line :: rest) = acceptedProjected rest := by
        simp [acceptedProjected, List.filterMap_cons, hx]
      rw [processLine_malformed line d acc hx] at h
      have h' : runLines rest d acc = .ok out := h
      rw [hs, acceptedRows_cons_malformed line rest hx]
      exact ih d acc out h'
    | some r =>
      cases hv : check_zip_data_requirements r with
      | false =>
        have hs : acceptedProjected (line :: rest) = acceptedProjected rest := by
          simp [acceptedProjected, List.filterMap_cons, hx, hv]
        rw [processLine_invalid line r d acc hx hv] at h
        have h' : runLines rest d acc = .ok out := h
        rw [hs, acceptedRows_cons_invalid line rest r hx hv]
        exact ih d acc out h'
      | true =>
        cases hp : np_rec_array r with
        | none =>
          rw [processLine_unparsable line r d acc hx hv hp] at h
          have h' : Except.error (α := DonDict × List OutputRow) RunError.valueError
              = .ok out := h
          simp at h'
        | some row =>
          have hs : acceptedProjected (line :: rest) = r :: acceptedProjected rest := by
            simp [acceptedProjected, List.filterMap_cons, hx, hv]
          rw [processLine_accepted line r row d acc hx hv hp] at h
          have h' : runLines rest (update_donations row d).2
              (acc ++ [(update_donations row d).1]) = .ok out := h
          rw [hs, acceptedRows_cons_accepted line rest r row hx hv hp]
          exact List.Forall₂.cons hp (ih _ _ out h')

theorem medianvals_ok_runLines (input : List (List Char)) (rows : List OutputRow)
    (hok : medianvals_by_zip input = .ok rows) :
    ∃ d : DonDict, runLines input [] [] = .ok (d, rows) ∧ rows ≠ [] := by
  unfold medianvals_by_zip at hok
  cases hr : runLines input [] [] with
  | error e => rw [hr] at hok; simp at hok
  | ok out =>
    obtain ⟨dfin, records⟩ := out
    rw [hr] at hok
    have hok' : (if records = [] then Except.error RunError.nameError
        else Except.ok records) = .ok rows := hok
    by_cases hne : records = []
    · rw [if_pos hne] at hok'; simp at hok'
    · rw [if_neg hne] at hok'
      obtain rfl : records = rows := by simpa using hok'
      exact ⟨dfin, rfl, hne⟩

theorem run_rows_eq (input : List (List Char)) (rows : List OutputRow)
    (hok : medianvals_by_zip input = .ok rows) :
    rows = emitGo [] (acceptedRows input) := by
  obtain ⟨d, hr, -⟩ := medianvals_ok_runLines input rows hok
  simpa using runLines_ok_rows input [] [] (d, rows) hr

theorem runLines_append (l1 l2 : List (List Char)) (d : DonDict) (acc : List OutputRow) :
    runLines (l1 ++ l2) d acc =
      match runLines l1 d acc with
      | .error e => .error e
      | .ok (c, r) => runLines l2 c r := by
  induction l1 generalizing d acc with
  | nil => rfl
  | cons line rest ih =>
    rw [List.cons_append, runLines_cons, runLines_cons]
    cases hp : processLine line d acc with
    | error e => rfl
    | ok st =>
      obtain ⟨c, r⟩ := st
      exact ih c r

theorem extract_data_eq (line : List Char) :
    extract_data line =
      if (pySplit '|' (pyStripChar '\n' line)).length ≠ 21 then none
      else some
        { cmte_id := (pySplit '|' (pyStripChar '\n' line)).getD 0 []
          zip_code :=
            (pyStripChar ' ' ((pySplit '|' (pyStripChar '\n' line)).getD 10 [])).take 5
          trans_dt := (pySplit '|' (pyStripChar '\n' line)).getD 13 []
          trans_amt := (pySplit '|' (pyStripChar '\n' line)).getD 14 []
          other_id := (pySplit '|' (pyStripChar '\n' line)).getD 15 [] } := rfl

theorem run_row_spec (input : List (List Char)) (rows : List OutputRow)
    (hok : medianvals_by_zip input = .ok rows) (k : ℕ) (row : OutputRow)
    (hk : rows[k]? = some row) :
    ∃ r, (acceptedRows input)[k]? = some r ∧
      row = mkOutputRow r
        (keyAmounts ((acceptedRows input).take (k + 1)) r.cmte_id r.zip_code) := by
  have hrows := run_rows_eq input rows hok
  rw [hrows] at hk
  have hlen : k < (acceptedRows input).length := by
    have h1 := (List.getElem?_eq_some.mp hk).1
    rwa [emitGo_length] at h1
  refine ⟨(acceptedRows input)[k], List.getElem?_eq_getElem hlen, ?_⟩
  have hg := emitGo_get (acceptedRows input) [] [] dictMatches_nil k
    (acceptedRows input)[k] (List.getElem?_eq_getElem hlen)
  rw [hg] at hk
  simpa using hk.symm

/-! Concrete inputs used by the claim witnesses and counterexamples. -/

/-- A malformed line: splits into 2 fields, not 21. -/
def c7Line : List Char := "a|b".toList

/-- A well-formed, valid line whose amount text `1oo` is not numeric. -/
def c3Line : List Char :=
  "C1|x|x|x|x|x|x|x|x|x|90210|x|x|01012017|1oo||x|x|x|x|x".toList

/-- The projected record of `c3Line`. -/
def c3Rec : ProjectedRecord :=
  ⟨"C1".toList, "90210".toList, "01012017".toList, "1oo".toList, []⟩

/-- A well-formed line whose zip field starts with a tab character. -/
def c9Line : List Char :=
  "C1|x|x|x|x|x|x|x|x|x|\t12345|x|x|01012017|100||x|x|x|x|x".toList

/-- A well-formed line whose zip field has surrounding spaces. -/
def c9wLine : List Char :=
  "C1|x|x|x|x|x|x|x|x|x|  90210 |x|x|01012017|100||x|x|x|x|x".toList

/-- The projected record of `c9wLine`. -/
def c9wRec : ProjectedRecord :=
  ⟨"C1".toList, "90210".toList, "01012017".toList, "100".toList, []⟩

/-- First valid line of the two-line witness input (amount 20). -/
def wLine1 : List Char :=
  "C00000001|x|x|x|x|x|x|x|x|x|90210|x|x|01012017|20|||x|x|x|x".toList

/-- Second valid line of the two-line witness input (amount 25, same
key), so the even-length median is 22.5, rounding away from zero to
23. -/
def wLine2 : List Char :=
  "C00000001|x|x|x|x|x|x|x|x|x|90210|x|x|01012017|25|||x|x|x|x".toList

/-- The two-line witness input. -/
def wInput : List (List Char) := [wLine1, wLine2]

/-- Expected first output row of `wInput`. -/
def wRow1 : OutputRow := ⟨"C00000001".toList, "90210".toList, 20, 1, 20⟩

/-- Expected second output row of `wInput`. -/
def wRow2 : OutputRow := ⟨"C00000001".toList, "90210".toList, 23, 2, 45⟩

/-- Expected output rows of `wInput`. -/
def wRows : List OutputRow := [wRow1, wRow2]

/-- The Python whitespace set stripped by the claim-side (not the
source-side) zip normalization. -/
def pyWhitespaceChars : List Char := [' ', '\t', '\n', '\r', '\x0b', '\x0c']

/-- Claim-side normalization of C9's wording: strip all surrounding
whitespace (this is what the spec says; the source strips only the
space character). -/
def stripWhitespace (s : List Char) : List Char :=
  ((s.dropWhile (pyWhitespaceChars.contains ·)).reverse.dropWhile
    (pyWhitespaceChars.contains ·)).reverse

/-- C6: the validator rejects a projected record iff its recipient id
is empty, or its space-trimmed postal code does not have length 5
(which subsumes the explicitly checked empty case), or its amount text
is empty, or its secondary id is nonempty; it accepts in every other
case, and it is a total function, so rejection never raises. -/
theorem check_zip_requirements_iff (r : ProjectedRecord) :
    check_zip_data_requirements r = false ↔
      (r.cmte_id = [] ∨ (pyStripChar ' ' r.zip_code).length ≠ 5 ∨
        r.trans_amt = [] ∨ r.other_id ≠ []) := by
  by_cases h : (r.cmte_id = [] ∨ (pyStripChar ' ' r.zip_code).length ≠ 5 ∨
      pyStripChar ' ' r.zip_code = [] ∨ r.trans_amt = [] ∨ r.other_id ≠ [])
  · simp only [check_zip_data_requirements, h, if_true, eq_self_iff_true, true_iff]
    rcases h with h | h | h | h | h
    · exact Or.inl h
    · exact Or.inr (Or.inl h)
    · refine Or.inr (Or.inl ?_)
      rw [h]
      decide
    · exact Or.inr (Or.inr (Or.inl h))
    · exact Or.inr (Or.inr (Or.inr h))
  · simp only [check_zip_data_requirements, h, if_false]
    constructor
    · intro hc
      exact absurd hc (by decide)
    · intro h4
      exfalso
      apply h
      rcases h4 with h4 | h4 | h4 | h4
      · exact Or.inl h4
      · exact Or.inr (Or.inl h4)
      · exact Or.inr (Or.inr (Or.inr (Or.inl h4)))
      · exact Or.inr (Or.inr (Or.inr (Or.inr h4)))

/-- C7: a line that does not split into exactly 21 pipe-separated
fields produces no output row and leaves the dictionary state
untouched (the loop iteration returns the state unchanged), and the
run simply continues with the remaining lines. -/
theorem malformed_line_no_effect (line : List Char) (d : DonDict) (acc : List OutputRow)
    (h : (pySplit '|' (pyStripChar '\n' line)).length ≠ 21) :
    processLine line d acc = .ok (d, acc) ∧
    ∀ rest : List (List Char), runLines (line :: rest) d acc = runLines rest d acc := by
  have hx : extract_data line = none := by
    rw [extract_data_eq, if_pos h]
  refine ⟨processLine_malformed line d acc hx, fun rest => ?_⟩
  rw [runLines_cons, processLine_malformed line d acc hx]

/-- Witness for C7: the two-field line `a|b` is skipped without any
effect on the state. -/
theorem malformed_line_no_effect_witness :
    (pySplit '|' (pyStripChar '\n' c7Line)).length ≠ 21 ∧
    (processLine c7Line [] [] = .ok ([], []) ∧
      ∀ rest : List (List Char), runLines (c7Line :: rest) [] [] = runLines rest [] []) :=
  ⟨by decide, malformed_line_no_effect c7Line [] [] (by decide)⟩

/-- Counterexample to C9: on a well-formed line whose zip field is
`"\t12345"`, the source projects the zip code `"\t1234"` (it strips
only spaces, then truncates to five characters), while the claim's
whitespace-stripping normalization would give `"12345"`. -/
theorem zip_strip_whitespace_cex :
    (extract_data c9Line).map ProjectedRecord.zip_code = some "\t1234".toList ∧
    (stripWhitespace ((pySplit '|' (pyStripChar '\n' c9Line)).getD 10 [])).take 5 =
      "12345".toList ∧
    ("\t1234".toList : List Char) ≠ "12345".toList :=
  ⟨by decide, by decide, by decide⟩

/-- C9 amended: the projected postal code is the field at index 10 of
the split line with surrounding space characters (only `' '`, not all
whitespace) stripped, then truncated to at most its first five
characters; the extraction is total, so no error is raised when the
stripped value is shorter than five characters. -/
theorem zip_extraction_strips_spaces (line : List Char) (r : ProjectedRecord)
    (h : extract_data line = some r) :
    r.zip_code =
      (pyStripChar ' ' ((pySplit '|' (pyStripChar '\n' line)).getD 10 [])).take 5 := by
  rw [extract_data_eq] at h
  split at h
  · exact absurd h (by simp)
  · injection h with h2
    rw [← h2]

/-- Witness for the amended C9 at a line whose zip field is
`"  90210 "`: the projected zip is `"90210"`. -/
theorem zip_extraction_strips_spaces_witness :
    extract_data c9wLine = some c9wRec ∧
    c9wRec.zip_code =
      (pyStripChar ' ' ((pySplit '|' (pyStripChar '\n' c9wLine)).getD 10 [])).take 5 :=
  ⟨by decide, zip_extraction_strips_spaces c9wLine c9wRec (by decide)⟩

/-- Counterexample to C3: `c3Line` passes the field-count check and
validation, its amount text `1oo` is not numeric, and the run on
`[c3Line, wLine1]` aborts with the conversion error instead of
skipping the line and processing the following (perfectly valid)
line. -/
theorem unparsable_amount_cex :
    (extract_data c3Line).map check_zip_data_requirements = some true ∧
    (extract_data c3Line).map (fun r => (np_rec_array r).isSome) = some false ∧
    medianvals_by_zip [c3Line, wLine1] = .error RunError.valueError :=
  ⟨by decide, by decide, by decide⟩

/-- C3 amended: a line that passes the field-count check and validation
but whose amount text does not convert to the numeric record raises an
uncaught conversion error: the run aborts at that line (subsequent
lines are not processed and no output is written). -/
theorem unparsable_amount_aborts (pre post : List (List Char)) (line : List Char)
    (r : ProjectedRecord) (st : DonDict × List OutputRow)
    (hpre : runLines pre [] [] = .ok st)
    (hx : extract_data line = some r)
    (hv : check_zip_data_requirements r = true)
    (hp : np_rec_array r = none) :
    medianvals_by_zip (pre ++ line :: post) = .error RunError.valueError := by
  obtain ⟨c, racc⟩ := st
  have hrun : runLines (pre ++ line :: post) [] [] = .error RunError.valueError := by
    rw [runLines_append, hpre]
    show runLines (line :: post) c racc = _
    rw [runLines_cons, processLine_unparsable line r c racc hx hv hp]
  unfold medianvals_by_zip
  rw [hrun]

/-- Witness for the amended C3 at the concrete input
`[c3Line, wLine1]`. -/
theorem unparsable_amount_aborts_witness :
    runLines [] [] [] = .ok ([], []) ∧ extract_data c3Line = some c3Rec ∧
    check_zip_data_requirements c3Rec = true ∧ np_rec_array c3Rec = none ∧
    medianvals_by_zip ([] ++ c3Line :: [wLine1]) = .error RunError.valueError :=
  ⟨rfl, by decide, by decide, by decide,
    unparsable_amount_aborts [] [wLine1] c3Line c3Rec ([], []) rfl (by decide) (by decide)
      (by decide)⟩

/-- C4 fails on the code: on a readable input with no accepted record —
the empty file, or a file holding only the rejected line `a|b` — the
run does not complete normally with an empty output; it raises
`NameError`, because `output_records` is assigned only inside the
accepted branch of the loop and `np.savetxt` at line 122 reads it
unconditionally.  This is a slip in the code (the intended behaviour,
and the spec's, is an empty output file). -/
theorem no_accepted_records_name_error :
    medianvals_by_zip [] = .error RunError.nameError ∧
    medianvals_by_zip [c7Line] = .error RunError.nameError :=
  ⟨by decide, by decide⟩

/-- C5: each emitted row's donation count equals the number of accepted
records seen so far (including the current one) sharing the row's
(recipient id, postal code) key, which is the length of that key's
amount series at emission time. -/
theorem donation_count_eq_series_length (input : List (List Char)) (rows : List OutputRow)
    (hok : medianvals_by_zip input = .ok rows) (k : ℕ) (row : OutputRow)
    (hk : rows[k]? = some row) :
    ∃ r, (acceptedRows input)[k]? = some r ∧
      row.donation_count =
        (((acceptedRows input).take (k + 1)).filter fun x =>
          decide (x.cmte_id = r.cmte_id ∧ x.zip_code = r.zip_code)).length ∧
      row.donation_count =
        (keyAmounts ((acceptedRows input).take (k + 1)) r.cmte_id r.zip_code).length := by
  obtain ⟨r, h1, h2⟩ := run_row_spec input rows hok k row hk
  refine ⟨r, h1, ?_, by rw [h2]; rfl⟩
  rw [h2]
  simp [mkOutputRow, keyAmounts]

/-- Witness for C5 at the second row of the two-line input. -/
theorem donation_count_eq_series_length_witness :
    medianvals_by_zip wInput = .ok wRows ∧ wRows[1]? = some wRow2 ∧
    (∃ r, (acceptedRows wInput)[1]? = some r ∧
      wRow2.donation_count =
        (((acceptedRows wInput).take 2).filter fun x =>
          decide (x.cmte_id = r.cmte_id ∧ x.zip_code = r.zip_code)).length ∧
      wRow2.donation_count =
        (keyAmounts ((acceptedRows wInput).take 2) r.cmte_id r.zip_code).length) :=
  ⟨by decide, by decide,
    donation_count_eq_series_length wInput wRows (by decide) 1 wRow2 (by decide)⟩

/-- C2: each emitted row's total equals the sum of all amounts observed
so far for its key (including the current record), truncated toward
zero when stored into the integer column. -/
theorem total_amount_truncated_sum (input : List (List Char)) (rows : List OutputRow)
    (hok : medianvals_by_zip input = .ok rows) (k : ℕ) (row : OutputRow)
    (hk : rows[k]? = some row) :
    ∃ r, (acceptedRows input)[k]? = some r ∧
      row.total_amt = Frac.trunc (Frac.sum
        (keyAmounts ((acceptedRows input).take (k + 1)) r.cmte_id r.zip_code)) := by
  obtain ⟨r, h1, h2⟩ := run_row_spec input rows hok k row hk
  exact ⟨r, h1, by rw [h2]; rfl⟩

/-- Witness for C2 at the second row of the two-line input (total
`20 + 25 = 45`). -/
theorem total_amount_truncated_sum_witness :
    medianvals_by_zip wInput = .ok wRows ∧ wRows[1]? = some wRow2 ∧
    (∃ r, (acceptedRows wInput)[1]? = some r ∧
      wRow2.total_amt = Frac.trunc (Frac.sum
        (keyAmounts ((acceptedRows wInput).take 2) r.cmte_id r.zip_code))) :=
  ⟨by decide, by decide,
    total_amount_truncated_sum wInput wRows (by decide) 1 wRow2 (by decide)⟩

/-- Median of a series as C1 describes it: the middle element of the
value-sorted series for odd length, the mean of the two central
elements for even length, rounded to the nearest integer with halves
away from zero (`pyRound`). -/
def specMedianRounded (s : List Frac) : ℤ :=
  if s.length % 2 = 1 then pyRound ((sortFracs s).getD (s.length / 2) ⟨0, 1⟩)
  else pyRound (Frac.div2 (Frac.add ((sortFracs s).getD (s.length / 2 - 1) ⟨0, 1⟩)
    ((sortFracs s).getD (s.length / 2) ⟨0, 1⟩)))

/-- C1: each emitted row's median is the sorted series' central value
(odd length) or the mean of its two central values (even length),
rounded to the nearest integer with halves away from zero. -/
theorem median_central_values_rounded (input : List (List Char)) (rows : List OutputRow)
    (hok : medianvals_by_zip input = .ok rows) (k : ℕ) (row : OutputRow)
    (hk : rows[k]? = some row) :
    ∃ r, (acceptedRows input)[k]? = some r ∧
      row.median_amt_by_zip =
        specMedianRounded
          (keyAmounts ((acceptedRows input).take (k + 1)) r.cmte_id r.zip_code) := by
  obtain ⟨r, h1, h2⟩ := run_row_spec input rows hok k row hk
  refine ⟨r, h1, ?_⟩
  rw [h2]
  show pyRound (npMedian _) = _
  unfold npMedian specMedianRounded
  by_cases hpar :
      (keyAmounts ((acceptedRows input).take (k + 1)) r.cmte_id r.zip_code).length % 2 = 1 <;>
    simp [hpar]

/-- Witness for C1 at the second row of the two-line input: the series
is `[20, 25]`, its mean is 22.5, and the emitted median is 23 (away
from zero). -/
theorem median_central_values_rounded_witness :
    medianvals_by_zip wInput = .ok wRows ∧ wRows[1]? = some wRow2 ∧
    wRow2.median_amt_by_zip = 23 ∧
    (∃ r, (acceptedRows wInput)[1]? = some r ∧
      wRow2.median_amt_by_zip =
        specMedianRounded (keyAmounts ((acceptedRows wInput).take 2) r.cmte_id r.zip_code)) :=
  ⟨by decide, by decide, by decide,
    median_central_values_rounded wInput wRows (by decide) 1 wRow2 (by decide)⟩

/-- C8: on a normally completing run the emitted rows are exactly one
per accepted line, in input order (they coincide with the record-level
fold over the accepted records), with the row at index `k` carrying the
identifiers of the `k`-th accepted record, and the output file holds
one pipe-joined line per row (`renderRow` joins the five columns with
the literal pipe character). -/
theorem output_one_row_per_accepted (input : List (List Char)) (rows : List OutputRow)
    (hok : medianvals_by_zip input = .ok rows) :
    rows = emitGo [] (acceptedRows input) ∧
    rows.length = (acceptedProjected input).length ∧
    (∀ (k : ℕ) (r : RecArrayRow), (acceptedRows input)[k]? = some r →
      ∃ row, rows[k]? = some row ∧ row.cmte_id = r.cmte_id ∧ row.zip_code = r.zip_code) ∧
    medianvals_output input = .ok (rows.map renderRow) := by
  have hrows := run_rows_eq input rows hok
  obtain ⟨d, hr, hne⟩ := medianvals_ok_runLines input rows hok
  have hf2 := runLines_ok_conv input [] [] (d, rows) hr
  refine ⟨hrows, ?_, ?_, ?_⟩
  · rw [hrows, emitGo_length (acceptedRows input) []]
    exact (List.Forall₂.length_eq hf2).symm
  · intro k r hkr
    refine ⟨mkOutputRow r
      (keyAmounts ((acceptedRows input).take (k + 1)) r.cmte_id r.zip_code), ?_, rfl, rfl⟩
    rw [hrows]
    exact emitGo_get (acceptedRows input) [] [] dictMatches_nil k r hkr
  · simp [medianvals_output, hok, Except.map]

/-- Witness for C8 at the two-line input. -/
theorem output_one_row_per_accepted_witness :
    wRows = emitGo [] (acceptedRows wInput) ∧
    wRows.length = (acceptedProjected wInput).length ∧
    (∀ (k : ℕ) (r : RecArrayRow), (acceptedRows wInput)[k]? = some r →
      ∃ row, wRows[k]? = some row ∧ row.cmte_id = r.cmte_id ∧ row.zip_code = r.zip_code) ∧
    medianvals_output wInput = .ok (wRows.map renderRow) :=
  output_one_row_per_accepted wInput wRows (by decide)

theorem np_rec_array_fields (p : ProjectedRecord) (r : RecArrayRow)
    (h : np_rec_array p = some r) :
    r.cmte_id = p.cmte_id.take 10 ∧ r.zip_code = p.zip_code.take 10 := by
  unfold np_rec_array at h
  cases hf : pyParseFloat p.trans_amt with
  | none => rw [hf] at h; simp at h
  | some amt =>
    cases hi : pyParseInt p.trans_amt with
    | none => rw [hf, hi] at h; simp at h
    | some n =>
      rw [hf, hi] at h
      have h' : some (⟨p.cmte_id.take 10, p.zip_code.take 10, amt⟩ : RecArrayRow)
          = some r := h
      injection h' with h2
      rw [← h2]
      exact ⟨rfl, rfl⟩

theorem forall2_take {α β : Type} (R : α → β → Prop) (l1 : List α) (l2 : List β)
    (h : List.Forall₂ R l1 l2) :
    ∀ n : ℕ, List.Forall₂ R (l1.take n) (l2.take n) := by
  induction h with
  | nil => intro n; simp
  | @cons a b as bs hR hf ih =>
    intro n
    cases n with
    | zero => simp
    | succ n =>
      simp only [List.take_succ_cons]
      exact List.Forall₂.cons hR (ih n)

theorem forall2_getElem_left {α β : Type} (R : α → β → Prop) (l1 : List α) (l2 : List β)
    (h : List.Forall₂ R l1 l2) :
    ∀ (k : ℕ) (b : β), l2[k]? = some b → ∃ a, l1[k]? = some a ∧ R a b := by
  induction h with
  | nil => intro k b hb; simp at hb
  | @cons x y xs ys hR hf ih =>
    intro k b hb
    cases k with
    | zero =>
      obtain rfl : y = b := by simpa using hb
      exact ⟨x, by simp, hR⟩
    | succ k =>
      obtain ⟨a, ha, hab⟩ := ih k b (by simpa using hb)
      exact ⟨a, by simpa using ha, hab⟩

theorem forall2_filter_length {α β : Type} (R : α → β → Prop) (pq : α → Bool)
    (qq : β → Bool) (hpq : ∀ a b, R a b → pq a = qq b) (l1 : List α) (l2 : List β)
    (h : List.Forall₂ R l1 l2) :
    (l1.filter pq).length = (l2.filter qq).length := by
  induction h with
  | nil => rfl
  | @cons a b as bs hR hf ih =>
    rw [List.filter_cons, List.filter_cons, hpq a b hR]
    cases hq : qq b <;> simp [hq, ih]

/-- C10: each emitted row carries the recipient id truncated to its
first ten characters (the `|S10` dtype), and aggregation is keyed on
the truncated id: the row's donation count counts every accepted record
so far whose recipient id agrees on the first ten characters (and whose
truncated postal code agrees), even when the full ids differ beyond
character ten. -/
theorem cmte_id_truncated_to_ten (input : List (List Char)) (rows : List OutputRow)
    (hok : medianvals_by_zip input = .ok rows) (k : ℕ) (row : OutputRow)
    (hk : rows[k]? = some row) :
    ∃ p r, (acceptedProjected input)[k]? = some p ∧ (acceptedRows input)[k]? = some r ∧
      row.cmte_id = p.cmte_id.take 10 ∧ row.cmte_id.length ≤ 10 ∧
      row.donation_count =
        (((acceptedProjected input).take (k + 1)).filter fun q =>
          decide (q.cmte_id.take 10 = p.cmte_id.take 10 ∧
            q.zip_code.take 10 = p.zip_code.take 10)).length := by
  obtain ⟨r, h1, h2⟩ := run_row_spec input rows hok k row hk
  obtain ⟨d, hr, hne⟩ := medianvals_ok_runLines input rows hok
  have hf2 := runLines_ok_conv input [] [] (d, rows) hr
  obtain ⟨p, hp1, hpR⟩ := forall2_getElem_left _ _ _ hf2 k r h1
  obtain ⟨hc10, hz10⟩ := np_rec_array_fields p r hpR
  have hcond : ∀ (a : ProjectedRecord) (b : RecArrayRow),
      np_rec_array a = some b →
      (decide (a.cmte_id.take 10 = p.cmte_id.take 10 ∧
        a.zip_code.take 10 = p.zip_code.take 10) : Bool) =
      decide (b.cmte_id = r.cmte_id ∧ b.zip_code = r.zip_code) := by
    intro a b hab
    obtain ⟨hb1, hb2⟩ := np_rec_array_fields a b hab
    apply decide_eq_decide.mpr
    rw [hb1, hb2, hc10, hz10]
  refine ⟨p, r, hp1, h1, ?_, ?_, ?_⟩
  · rw [h2]
    show r.cmte_id = _
    rw [hc10]
  · rw [h2]
    show r.cmte_id.length ≤ 10
    rw [hc10, List.length_take]
    omega
  · rw [h2]
    show (keyAmounts ((acceptedRows input).take (k + 1)) r.cmte_id r.zip_code).length = _
    have hlen := forall2_filter_length _
      (fun q : ProjectedRecord => decide (q.cmte_id.take 10 = p.cmte_id.take 10 ∧
        q.zip_code.take 10 = p.zip_code.take 10))
      (fun x : RecArrayRow => decide (x.cmte_id = r.cmte_id ∧ x.zip_code = r.zip_code))
      hcond _ _ (forall2_take _ _ _ hf2 (k + 1))
    simp only [keyAmounts, List.length_map]
    exact hlen.symm

/-- First line of the C10 witness input: its recipient id
`AAAAAAAAAA11` has twelve characters. -/
def c10Line1 : List Char :=
  "AAAAAAAAAA11|x|x|x|x|x|x|x|x|x|90210|x|x|01012017|10|||x|x|x|x".toList

/-- Second line of the C10 witness input: its recipient id
`AAAAAAAAAA22` agrees with the first on the first ten characters and
differs afterwards. -/
def c10Line2 : List Char :=
  "AAAAAAAAAA22|x|x|x|x|x|x|x|x|x|90210|x|x|01012017|30|||x|x|x|x".toList

/-- The C10 witness input. -/
def c10Input : List (List Char) := [c10Line1, c10Line2]

/-- Expected second row of the C10 run: both records aggregate into the
key (`AAAAAAAAAA`, `90210`), so the count is 2 and the total 40. -/
def c10Row2 : OutputRow := ⟨"AAAAAAAAAA".toList, "90210".toList, 20, 2, 40⟩

/-- Expected rows of the C10 run. -/
def c10Rows : List OutputRow :=
  [⟨"AAAAAAAAAA".toList, "90210".toList, 10, 1, 10⟩, c10Row2]

/-- Witness for C10: two accepted records whose recipient ids differ
only beyond the tenth character are aggregated into one series. -/
theorem cmte_id_truncated_to_ten_witness :
    medianvals_by_zip c10Input = .ok c10Rows ∧ c10Rows[1]? = some c10Row2 ∧
    (∃ p r, (acceptedProjected c10Input)[1]? = some p ∧
      (acceptedRows c10Input)[1]? = some r ∧
      c10Row2.cmte_id = p.cmte_id.take 10 ∧ c10Row2.cmte_id.length ≤ 10 ∧
      c10Row2.donation_count =
        (((acceptedProjected c10Input).take 2).filter fun q =>
          decide (q.cmte_id.take 10 = p.cmte_id.take 10 ∧
            q.zip_code.take 10 = p.zip_code.take 10)).length) :=
  ⟨by decide, by decide,
    cmte_id_truncated_to_ten c10Input c10Rows (by decide) 1 c10Row2 (by decide)⟩
